import Mathlib

/-!
Shallow embedding of `internal/rsm/membership.go` from the dragonboat
repository: the cluster-membership bookkeeping and configuration-change
state machine.

Go maps `map[uint64]string` are modelled as association lists
`List (Nat × String)` whose semantics is given by `mapLookup` (first
binding wins); `mapInsert` overwrites, `mapDelete` removes every binding
of the key, `mapKeys` is the deduplicated key list and `mapSize` its
length, matching `len` on a Go map. `map[uint64]bool` used as a set is
modelled as `List Nat` with `List.insert`. Go `panic` (a fatal process
abort) is modelled by returning `none`.
-/

/-- Association-list lookup: the value bound to key `k`, first binding wins
(Go map indexing `m[k]` with the `ok` flag as `Option`). -/
def mapLookup (m : List (Nat × String)) (k : Nat) : Option String :=
  match m with
  | [] => none
  | (k', v) :: t => if k' = k then some v else mapLookup t k

/-- Go `_, ok := m[k]` presence test. -/
def mapContains (m : List (Nat × String)) (k : Nat) : Bool :=
  (mapLookup m k).isSome

/-- Go `delete(m, k)`. -/
def mapDelete (m : List (Nat × String)) (k : Nat) : List (Nat × String) :=
  m.filter (fun e => e.1 != k)

/-- Go `m[k] = v`: overwrite the binding of `k`. -/
def mapInsert (m : List (Nat × String)) (k : Nat) (v : String) :
    List (Nat × String) :=
  (k, v) :: mapDelete m k

/-- The key set of the map, as a duplicate-free list (Go `for k := range m`). -/
def mapKeys (m : List (Nat × String)) : List Nat :=
  (m.map Prod.fst).dedup

/-- Go `len(m)`: the number of distinct keys. -/
def mapSize (m : List (Nat × String)) : Nat :=
  (mapKeys m).length

/-- The ASCII fragment of Go `unicode.IsSpace`. -/
def isSpaceChar (c : Char) : Bool :=
  c = ' ' || c = '\t' || c = '\n' || c = '\x0b' || c = '\x0c' || c = '\r'

/-- Go `strings.TrimSpace`: drop leading and trailing whitespace. -/
def trimSpace (s : String) : String :=
  String.mk (((s.toList.dropWhile isSpaceChar).reverse.dropWhile
    isSpaceChar).reverse)

/-- Go `strings.EqualFold`, modelled for ASCII: case-insensitive equality. -/
def equalFold (a b : String) : Bool :=
  a.toList.map Char.toLower == b.toList.map Char.toLower

/-- `addressEqual` from membership.go: case-insensitive comparison after
trimming surrounding whitespace. -/
def addressEqual (addr1 addr2 : String) : Bool :=
  equalFold (trimSpace addr1) (trimSpace addr2)

namespace pb

/-- `raftpb.ConfigChangeType`. The Go enum is an integer type, so values
other than the four declared constants are representable; `other`
captures those. -/
inductive ConfigChangeType where
  | addNode
  | removeNode
  | addObserver
  | addWitness
  | other (v : Nat)
deriving DecidableEq, Repr

/-- `raftpb.ConfigChange`. The Go field `Initialize` is called `bootstrap`
here. -/
structure ConfigChange where
  configChangeId : Nat
  type : ConfigChangeType
  nodeID : Nat
  address : String
  bootstrap : Bool
deriving DecidableEq, Repr

/-- `raftpb.Membership`: the membership snapshot. `addresses` is the voter
map, `removed` the set of retired node ids. -/
structure Membership where
  configChangeId : Nat
  addresses : List (Nat × String)
  removed : List Nat
  observers : List (Nat × String)
  witnesses : List (Nat × String)
deriving DecidableEq, Repr

end pb

/-- `deepCopyMembership`: in the pure model a deep copy is the value
itself, field by field. -/
def deepCopyMembership (m : pb.Membership) : pb.Membership :=
  { configChangeId := m.configChangeId
    addresses := m.addresses
    removed := m.removed
    observers := m.observers
    witnesses := m.witnesses }

/-- The `membership` store struct from membership.go. -/
structure membership where
  clusterID : Nat
  nodeID : Nat
  ordered : Bool
  members : pb.Membership
deriving DecidableEq, Repr

/-- `newMembership`. -/
def newMembership (clusterID nodeID : Nat) (ordered : Bool) : membership :=
  { clusterID := clusterID
    nodeID := nodeID
    ordered := ordered
    members :=
      { configChangeId := 0
        addresses := []
        removed := []
        observers := []
        witnesses := [] } }

/-- `membership.set`: wholesale replacement of the snapshot by a deep copy
of the argument; no validation. -/
def membership.set (m : membership) (n : pb.Membership) : membership :=
  { m with members := deepCopyMembership n }

/-- `membership.isEmpty`. -/
def membership.isEmpty (m : membership) : Bool :=
  mapSize m.members.addresses = 0

/-- `membership.isConfChangeUpToDate`. -/
def membership.isConfChangeUpToDate (m : membership) (cc : pb.ConfigChange) :
    Bool :=
  if !m.ordered || cc.bootstrap then true
  else if m.members.configChangeId = cc.configChangeId then true
  else false

/-- `membership.isAddingRemovedNode`. -/
def membership.isAddingRemovedNode (m : membership) (cc : pb.ConfigChange) :
    Bool :=
  if cc.type = .addNode || cc.type = .addObserver || cc.type = .addWitness
  then m.members.removed.contains cc.nodeID
  else false

/-- `membership.isPromotingObserver`. -/
def membership.isPromotingObserver (m : membership) (cc : pb.ConfigChange) :
    Bool :=
  if cc.type = .addNode then
    match mapLookup m.members.observers cc.nodeID with
    | some oa => addressEqual oa cc.address
    | none => false
  else false

/-- `membership.isInvalidObserverPromotion`. -/
def membership.isInvalidObserverPromotion (m : membership)
    (cc : pb.ConfigChange) : Bool :=
  if cc.type = .addNode then
    match mapLookup m.members.observers cc.nodeID with
    | some oa => !addressEqual oa cc.address
    | none => false
  else false

/-- `membership.isAddingExistingMember`. -/
def membership.isAddingExistingMember (m : membership)
    (cc : pb.ConfigChange) : Bool :=
  if cc.type = .addNode && mapContains m.members.addresses cc.nodeID then
    true
  else if cc.type = .addObserver && mapContains m.members.observers cc.nodeID
  then true
  else if cc.type = .addWitness && mapContains m.members.witnesses cc.nodeID
  then true
  else if m.isPromotingObserver cc then false
  else if cc.type = .addNode || cc.type = .addObserver ||
      cc.type = .addWitness then
    m.members.addresses.any (fun e => addressEqual e.2 cc.address) ||
    m.members.observers.any (fun e => addressEqual e.2 cc.address) ||
    m.members.witnesses.any (fun e => addressEqual e.2 cc.address)
  else false

/-- `membership.isAddingNodeAsObserver`. -/
def membership.isAddingNodeAsObserver (m : membership)
    (cc : pb.ConfigChange) : Bool :=
  if cc.type = .addObserver then mapContains m.members.addresses cc.nodeID
  else false

/-- `membership.isAddingNodeAsWitness`. -/
def membership.isAddingNodeAsWitness (m : membership)
    (cc : pb.ConfigChange) : Bool :=
  if cc.type = .addWitness then mapContains m.members.addresses cc.nodeID
  else false

/-- `membership.isAddingWitnessAsObserver`. -/
def membership.isAddingWitnessAsObserver (m : membership)
    (cc : pb.ConfigChange) : Bool :=
  if cc.type = .addObserver then mapContains m.members.witnesses cc.nodeID
  else false

/-- `membership.isAddingWitnessAsNode`. -/
def membership.isAddingWitnessAsNode (m : membership)
    (cc : pb.ConfigChange) : Bool :=
  if cc.type = .addNode then mapContains m.members.witnesses cc.nodeID
  else false

/-- `membership.isAddingObserverAsWitness`. -/
def membership.isAddingObserverAsWitness (m : membership)
    (cc : pb.ConfigChange) : Bool :=
  if cc.type = .addWitness then mapContains m.members.observers cc.nodeID
  else false

/-- `membership.isDeletingOnlyNode`. -/
def membership.isDeletingOnlyNode (m : membership) (cc : pb.ConfigChange) :
    Bool :=
  if cc.type = .removeNode && mapSize m.members.addresses = 1 then
    mapContains m.members.addresses cc.nodeID
  else false

/-- `membership.applyConfigChange`: stamps `configChangeId` with the log
index and mutates the role maps. The Go `panic` calls (the defensive
role-exclusivity checks and the unknown-type branch) are modelled by
returning `none`. -/
def membership.applyConfigChange (m : membership) (cc : pb.ConfigChange)
    (index : Nat) : Option membership :=
  let ms := { m.members with configChangeId := index }
  match cc.type with
  | .addNode =>
    let ms := { ms with observers := mapDelete ms.observers cc.nodeID }
    if mapContains ms.witnesses cc.nodeID then none
    else some { m with members :=
      { ms with addresses := mapInsert ms.addresses cc.nodeID cc.address } }
  | .addObserver =>
    if mapContains ms.addresses cc.nodeID then none
    else some { m with members :=
      { ms with observers := mapInsert ms.observers cc.nodeID cc.address } }
  | .addWitness =>
    if mapContains ms.addresses cc.nodeID then none
    else if mapContains ms.observers cc.nodeID then none
    else some { m with members :=
      { ms with witnesses := mapInsert ms.witnesses cc.nodeID cc.address } }
  | .removeNode =>
    some { m with members :=
      { ms with addresses := mapDelete ms.addresses cc.nodeID
                observers := mapDelete ms.observers cc.nodeID
                witnesses := mapDelete ms.witnesses cc.nodeID
                removed := ms.removed.insert cc.nodeID } }
  | .other _ => none

/-- `membership.handleConfigChange`: the single mutating entry point.
Computes every predicate, combines them into `accepted`, and either
applies the change or rejects it, reporting exactly one reason. The
result is `none` when the Go code would `panic` (abort the process);
otherwise `some (accepted, newStore)`. The accepted branch keeps the
source's logging structure: its trailing unknown-type `plog.Panicf` is a
`none`, as is the rejection chain's final `plog.Panicf`. -/
def membership.handleConfigChange (m : membership) (cc : pb.ConfigChange)
    (index : Nat) : Option (Bool × membership) :=
  let nodeBecomingObserver := m.isAddingNodeAsObserver cc
  let nodeBecomingWitness := m.isAddingNodeAsWitness cc
  let witnessBecomingNode := m.isAddingWitnessAsNode cc
  let witnessBecomingObserver := m.isAddingWitnessAsObserver cc
  let observerBecomingWitness := m.isAddingObserverAsWitness cc
  let alreadyMember := m.isAddingExistingMember cc
  let addRemovedNode := m.isAddingRemovedNode cc
  let upToDateCC := m.isConfChangeUpToDate cc
  let deleteOnlyNode := m.isDeletingOnlyNode cc
  let invalidPromotion := m.isInvalidObserverPromotion cc
  let accepted := upToDateCC &&
    !addRemovedNode &&
    !alreadyMember &&
    !nodeBecomingObserver &&
    !nodeBecomingWitness &&
    !witnessBecomingNode &&
    !witnessBecomingObserver &&
    !observerBecomingWitness &&
    !deleteOnlyNode &&
    !invalidPromotion
  if accepted then
    match m.applyConfigChange cc index with
    | none => none
    | some m2 =>
      if cc.type = .addNode then some (true, m2)
      else if cc.type = .removeNode then some (true, m2)
      else if cc.type = .addObserver then some (true, m2)
      else if cc.type = .addWitness then some (true, m2)
      else none
  else
    if !upToDateCC then some (false, m)
    else if addRemovedNode then some (false, m)
    else if alreadyMember then some (false, m)
    else if nodeBecomingObserver then some (false, m)
    else if nodeBecomingWitness then some (false, m)
    else if witnessBecomingNode then some (false, m)
    else if witnessBecomingObserver then some (false, m)
    else if observerBecomingWitness then some (false, m)
    else if deleteOnlyNode then some (false, m)
    else if invalidPromotion then some (false, m)
    else none

/-- The little-endian 8-byte encoding of a 64-bit value
(`binary.LittleEndian.PutUint64`); byte `i` is `v / 256 ^ i % 256`. -/
def putUint64LE (v : Nat) : List Nat :=
  (List.range 8).map (fun i => v / 256 ^ i % 256)

/-- `binary.LittleEndian.Uint64` over a byte list. -/
def leUint64 : List Nat → Nat
  | [] => 0
  | b :: t => b + 256 * leUint64 t

/-- `membership.getHash`, parameterized by the hash function `H` (the Go
code uses `crypto/md5`, an external library; writing the 8-byte blocks
into the hash one by one equals hashing their concatenation). Voter node
ids are collected, sorted ascending, `configChangeId` is appended, each
value is encoded as 8 little-endian bytes, and the first 8 bytes of the
hash of that stream are read as a little-endian 64-bit integer. -/
def membership.getHash (H : List Nat → List Nat) (m : membership) : Nat :=
  let vals := (mapKeys m.members.addresses).insertionSort (· ≤ ·)
  let vals := vals ++ [m.members.configChangeId]
  leUint64 ((H (vals.flatMap putUint64LE)).take 8)

/-- A sequence of committed `(request, logIndex)` pairs fed through
`handleConfigChange`; `none` when some call aborts. -/
def runChanges (m : membership) :
    List (pb.ConfigChange × Nat) → Option membership
  | [] => some m
  | (cc, idx) :: rest =>
    match m.handleConfigChange cc idx with
    | none => none
    | some (_, m2) => runChanges m2 rest

/-- The spec's staleness predicate, written from its words: order
enforcement is enabled, the request is not a bootstrap request, and the
requester's observed order differs from the snapshot's change order. -/
def staleSpec (m : membership) (cc : pb.ConfigChange) : Prop :=
  m.ordered = true ∧ cc.bootstrap = false ∧
  cc.configChangeId ≠ m.members.configChangeId

instance (m : membership) (cc : pb.ConfigChange) :
    Decidable (staleSpec m cc) := by
  unfold staleSpec; infer_instance

/-- The validator's combined verdict, exactly the `accepted` expression of
`handleConfigChange`. -/
def membership.acceptedOf (m : membership) (cc : pb.ConfigChange) : Bool :=
  m.isConfChangeUpToDate cc &&
  !m.isAddingRemovedNode cc &&
  !m.isAddingExistingMember cc &&
  !m.isAddingNodeAsObserver cc &&
  !m.isAddingNodeAsWitness cc &&
  !m.isAddingWitnessAsNode cc &&
  !m.isAddingWitnessAsObserver cc &&
  !m.isAddingObserverAsWitness cc &&
  !m.isDeletingOnlyNode cc &&
  !m.isInvalidObserverPromotion cc

/-- The exclusivity invariant of the spec: a node id is in at most one of
the voter, observer and witness maps. -/
def exclusive (ms : pb.Membership) : Prop :=
  ∀ k : Nat,
    (mapContains ms.addresses k = true →
      mapContains ms.observers k = false ∧
      mapContains ms.witnesses k = false) ∧
    (mapContains ms.observers k = true →
      mapContains ms.witnesses k = false)

/-- The monotonic-retirement invariant of the spec: a retired node id is
in no role map. -/
def retiredNotRoles (ms : pb.Membership) : Prop :=
  ∀ k ∈ ms.removed,
    mapContains ms.addresses k = false ∧
    mapContains ms.observers k = false ∧
    mapContains ms.witnesses k = false

/-- The digest byte stream as the spec words it: the little-endian 8-byte
encodings of the voter node ids sorted ascending, concatenated, followed
by the little-endian 8-byte encoding of the change order. -/
def digestBytesSpec (voterIds : List Nat) (changeOrder : Nat) : List Nat :=
  (voterIds.insertionSort (· ≤ ·)).flatMap putUint64LE ++
    putUint64LE changeOrder

/-- Sample store for exercising the validator: two voters, ordering on. -/
def c1m : membership :=
  { clusterID := 0, nodeID := 0, ordered := true,
    members := { configChangeId := 4, addresses := [(1, "a"), (2, "b")],
                 removed := [], observers := [], witnesses := [] } }

/-- Sample request for `c1m`: an up-to-date removal of voter 2. -/
def c1cc : pb.ConfigChange :=
  { configChangeId := 4, type := pb.ConfigChangeType.removeNode,
    nodeID := 2, address := "", bootstrap := false }

/-- Sample empty store with order enforcement off. -/
def c2m : membership :=
  { clusterID := 0, nodeID := 0, ordered := false,
    members := { configChangeId := 0, addresses := [], removed := [],
                 observers := [], witnesses := [] } }

/-- Sample bootstrap request adding voter 1. -/
def c2cc : pb.ConfigChange :=
  { configChangeId := 0, type := pb.ConfigChangeType.addNode, nodeID := 1,
    address := "a", bootstrap := true }

/-- The store `c2m` after `c2cc` is applied at log index 1. -/
def c2res : membership :=
  { clusterID := 0, nodeID := 0, ordered := false,
    members := { configChangeId := 1, addresses := [(1, "a")],
                 removed := [], observers := [], witnesses := [] } }

/-- Sample single-voter store. -/
def c3m : membership :=
  { clusterID := 0, nodeID := 0, ordered := true,
    members := { configChangeId := 0, addresses := [(1, "a")],
                 removed := [], observers := [], witnesses := [] } }

/-- Sample request removing the only voter of `c3m` (rejected). -/
def c3cc : pb.ConfigChange :=
  { configChangeId := 0, type := pb.ConfigChangeType.removeNode,
    nodeID := 1, address := "", bootstrap := false }

/-- Sample empty store with order enforcement off. -/
def c4m : membership :=
  { clusterID := 0, nodeID := 0, ordered := false,
    members := { configChangeId := 0, addresses := [], removed := [],
                 observers := [], witnesses := [] } }

/-- Sample bootstrap request adding voter 1. -/
def c4cc : pb.ConfigChange :=
  { configChangeId := 0, type := pb.ConfigChangeType.addNode, nodeID := 1,
    address := "a", bootstrap := true }

/-- The store `c4m` after `c4cc` is applied at log index 1. -/
def c4res : membership :=
  { clusterID := 0, nodeID := 0, ordered := false,
    members := { configChangeId := 1, addresses := [(1, "a")],
                 removed := [], observers := [], witnesses := [] } }

/-- Sample single-voter store for the last-voter-protection check. -/
def c5m : membership :=
  { clusterID := 0, nodeID := 0, ordered := true,
    members := { configChangeId := 7, addresses := [(1, "a")],
                 removed := [], observers := [], witnesses := [] } }

/-- Sample request removing the only voter of `c5m`. -/
def c5cc : pb.ConfigChange :=
  { configChangeId := 7, type := pb.ConfigChangeType.removeNode,
    nodeID := 1, address := "", bootstrap := false }

/-- Sample store whose snapshot is exactly one observer, node 2 at
address `a`. -/
def c6m : membership :=
  { clusterID := 0, nodeID := 0, ordered := false,
    members := { configChangeId := 0, addresses := [], removed := [],
                 observers := [(2, "a")], witnesses := [] } }

/-- Sample snapshot with voters 1 and 2 inserted in one order. -/
def c7m1 : membership :=
  { clusterID := 0, nodeID := 0, ordered := true,
    members := { configChangeId := 3, addresses := [(2, "x"), (1, "y")],
                 removed := [], observers := [(9, "o")], witnesses := [] } }

/-- Sample snapshot with the same voter ids inserted in the other order,
different addresses and different observer/witness/removed data. -/
def c7m2 : membership :=
  { clusterID := 0, nodeID := 0, ordered := true,
    members := { configChangeId := 3, addresses := [(1, "q"), (2, "r")],
                 removed := [7], observers := [], witnesses := [(5, "w")] } }

/-- Sample store with one voter and node 5 already retired. -/
def c8m : membership :=
  { clusterID := 0, nodeID := 0, ordered := false,
    members := { configChangeId := 0, addresses := [(1, "a")],
                 removed := [5], observers := [], witnesses := [] } }

/-- Sample request removing non-member node 2. -/
def c8cc : pb.ConfigChange :=
  { configChangeId := 0, type := pb.ConfigChangeType.removeNode,
    nodeID := 2, address := "", bootstrap := false }

/-- The store `c8m` after `c8cc` is applied at log index 1. -/
def c8res : membership :=
  { clusterID := 0, nodeID := 0, ordered := false,
    members := { configChangeId := 1, addresses := [(1, "a")],
                 removed := [2, 5], observers := [], witnesses := [] } }

/-- Sample two-voter store. -/
def c9m : membership :=
  { clusterID := 0, nodeID := 0, ordered := false,
    members := { configChangeId := 0, addresses := [(1, "a"), (2, "b")],
                 removed := [], observers := [], witnesses := [] } }

/-- Sample request removing node 9, which is in no role map. -/
def c9cc : pb.ConfigChange :=
  { configChangeId := 0, type := pb.ConfigChangeType.removeNode,
    nodeID := 9, address := "", bootstrap := false }

/-- Sample store with order enforcement on. -/
def c10m : membership :=
  { clusterID := 0, nodeID := 0, ordered := true,
    members := { configChangeId := 0, addresses := [(1, "a")],
                 removed := [], observers := [], witnesses := [] } }

/-- Sample stale request of an undeclared kind. -/
def c10cc : pb.ConfigChange :=
  { configChangeId := 3, type := pb.ConfigChangeType.other 7,
    nodeID := 1, address := "", bootstrap := false }

theorem mapLookup_delete (m : List (Nat × String)) (k k' : Nat) :
    mapLookup (mapDelete m k) k' =
      if k' = k then none else mapLookup m k' := by
  induction m with
  | nil => simp [mapDelete, mapLookup]
  | cons e t ih =>
    by_cases he : e.1 = k
    · simp only [mapDelete, List.filter] at ih ⊢
      rw [show (e.1 != k) = false by simp [he]]
      rw [ih]
      by_cases hk : k' = k
      · simp [hk]
      · simp [hk, mapLookup, fun h => hk (he ▸ h : k' = k) ,
          show e.1 ≠ k' from fun h => hk (h ▸ he)]
    · simp only [mapDelete, List.filter] at ih ⊢
      rw [show (e.1 != k) = true by simp [he]]
      cases e with
      | mk a b =>
        simp only [mapLookup]
        by_cases ha : a = k'
        · have : ¬ k' = k := fun h => he (by simp [ha, h])
          simp [ha, this]
        · simp only [ha, if_false]
          simpa [mapDelete] using ih

theorem mapContains_delete (m : List (Nat × String)) (k k' : Nat) :
    mapContains (mapDelete m k) k' =
      if k' = k then false else mapContains m k' := by
  unfold mapContains
  rw [mapLookup_delete]
  by_cases h : k' = k <;> simp [h]

theorem mapLookup_insert (m : List (Nat × String)) (k k' : Nat)
    (v : String) :
    mapLookup (mapInsert m k v) k' =
      if k' = k then some v else mapLookup m k' := by
  unfold mapInsert
  by_cases h : k' = k
  · simp [mapLookup, h]
  · simp only [mapLookup, show k ≠ k' from fun hh => h hh.symm, if_neg,
      if_false, h]
    rw [mapLookup_delete]
    simp [h]

theorem mapContains_insert (m : List (Nat × String)) (k k' : Nat)
    (v : String) :
    mapContains (mapInsert m k v) k' =
      if k' = k then true else mapContains m k' := by
  unfold mapContains
  rw [mapLookup_insert]
  by_cases h : k' = k <;> simp [h]

theorem ifOrCollapse {α : Type} (x y : Bool) (X Z : α) :
    (if x then X else if y then X else Z) = if x || y then X else Z := by
  cases x <;> simp

theorem boolChainCover : ∀ up a b c d e f g h i : Bool,
    (up && !a && !b && !c && !d && !e && !f && !g && !h && !i) = false →
    (((((((((!up || a) || b) || c) || d) || e) || f) || g) || h) || i) =
      true := by decide

/-- A rejected change returns `false` and leaves the store untouched:
whenever the `accepted` conjunction is false, one of the rejection
branches fires and every one of them returns `(false, m)`. -/
theorem handleConfigChange_rejected (m : membership) (cc : pb.ConfigChange)
    (index : Nat) (hacc : m.acceptedOf cc = false) :
    m.handleConfigChange cc index = some (false, m) := by
  unfold membership.acceptedOf at hacc
  unfold membership.handleConfigChange
  rw [if_neg (by simp [hacc])]
  rw [ifOrCollapse, ifOrCollapse, ifOrCollapse, ifOrCollapse, ifOrCollapse,
    ifOrCollapse, ifOrCollapse, ifOrCollapse, ifOrCollapse]
  rw [if_pos]
  have := boolChainCover _ _ _ _ _ _ _ _ _ _ hacc
  simp only [this]

/-- An accepted change defers to `applyConfigChange` and reports `true`
(or aborts when the applier does). -/
theorem handleConfigChange_accepted (m : membership) (cc : pb.ConfigChange)
    (index : Nat) (hacc : m.acceptedOf cc = true) :
    m.handleConfigChange cc index =
      (m.applyConfigChange cc index).map (fun m2 => (true, m2)) := by
  unfold membership.acceptedOf at hacc
  unfold membership.handleConfigChange
  rw [if_pos hacc]
  cases happ : m.applyConfigChange cc index with
  | none => simp
  | some m2 =>
    simp only [Option.map_some']
    cases htype : cc.type
    any_goals simp
    unfold membership.applyConfigChange at happ
    rw [htype] at happ
    simp at happ
theorem upToDate_iff_not_stale (m : membership) (cc : pb.ConfigChange) :
    m.isConfChangeUpToDate cc = true ↔ ¬ staleSpec m cc := by
  unfold membership.isConfChangeUpToDate staleSpec
  cases hord : m.ordered
  all_goals cases hboot : cc.bootstrap
  all_goals by_cases hid : m.members.configChangeId = cc.configChangeId
  all_goals simp [hid]
  all_goals omega

theorem acceptedOf_iff (m : membership) (cc : pb.ConfigChange) :
    m.acceptedOf cc = true ↔
      (¬ staleSpec m cc ∧
       m.isAddingRemovedNode cc = false ∧
       m.isAddingExistingMember cc = false ∧
       m.isAddingNodeAsObserver cc = false ∧
       m.isAddingNodeAsWitness cc = false ∧
       m.isAddingWitnessAsNode cc = false ∧
       m.isAddingWitnessAsObserver cc = false ∧
       m.isAddingObserverAsWitness cc = false ∧
       m.isDeletingOnlyNode cc = false ∧
       m.isInvalidObserverPromotion cc = false) := by
  unfold membership.acceptedOf
  rw [← upToDate_iff_not_stale]
  simp [Bool.and_eq_true, Bool.not_eq_true']
  tauto

/-- When the validator accepts a request of one of the four declared
kinds, every defensive check inside the applier passes. -/
theorem applyConfigChange_accepted_some (m : membership)
    (cc : pb.ConfigChange) (index : Nat) (hacc : m.acceptedOf cc = true)
    (hknown : ∀ v, cc.type ≠ pb.ConfigChangeType.other v) :
    ∃ m2, m.applyConfigChange cc index = some m2 := by
  obtain ⟨-, -, -, h4, h5, h6, -, h8, -, -⟩ := (acceptedOf_iff m cc).mp hacc
  unfold membership.applyConfigChange
  cases htype : cc.type with
  | addNode =>
    unfold membership.isAddingWitnessAsNode at h6
    rw [htype] at h6
    simp at h6
    simp [h6]
  | addObserver =>
    unfold membership.isAddingNodeAsObserver at h4
    rw [htype] at h4
    simp at h4
    simp [h4]
  | addWitness =>
    unfold membership.isAddingNodeAsWitness at h5
    unfold membership.isAddingObserverAsWitness at h8
    rw [htype] at h5 h8
    simp at h5 h8
    simp [h5, h8]
  | removeNode => simp
  | other v => exact absurd htype (hknown v)

theorem applyConfigChange_exclusive (m : membership) (cc : pb.ConfigChange)
    (index : Nat) (m2 : membership) (hex : exclusive m.members)
    (hacc : m.acceptedOf cc = true)
    (happ : m.applyConfigChange cc index = some m2) :
    exclusive m2.members := by
  obtain ⟨-, -, -, -, -, -, h7, h8, -, -⟩ := (acceptedOf_iff m cc).mp hacc
  unfold membership.applyConfigChange at happ
  cases htype : cc.type with
  | addNode =>
    rw [htype] at happ
    simp only at happ
    split at happ
    · exact absurd happ (by simp)
    · rename_i hwit
      simp only [Option.some.injEq] at happ
      subst happ
      intro k
      simp only [mapContains_insert, mapContains_delete]
      by_cases hk : k = cc.nodeID
      · subst hk
        simp only [if_pos rfl]
        refine ⟨fun _ => ⟨rfl, ?_⟩, fun h => absurd h (by simp)⟩
        simpa using hwit
      · simp only [if_neg hk]
        exact hex k
  | addObserver =>
    rw [htype] at happ
    simp only at happ
    split at happ
    · exact absurd happ (by simp)
    · rename_i haddr
      simp only [Option.some.injEq] at happ
      subst happ
      unfold membership.isAddingWitnessAsObserver at h7
      rw [htype] at h7
      simp at h7
      intro k
      simp only [mapContains_insert]
      by_cases hk : k = cc.nodeID
      · subst hk
        simp only [if_pos rfl]
        have haddr' : mapContains m.members.addresses cc.nodeID = false := by
          simpa using haddr
        exact ⟨fun h => absurd h (by simp [haddr']), fun _ => h7⟩
      · simp only [if_neg hk]
        exact hex k
  | addWitness =>
    rw [htype] at happ
    simp only at happ
    split at happ
    · exact absurd happ (by simp)
    · split at happ
      · exact absurd happ (by simp)
      · rename_i haddr hobs
        simp only [Option.some.injEq] at happ
        subst happ
        intro k
        simp only [mapContains_insert]
        by_cases hk : k = cc.nodeID
        · subst hk
          have haddr' : mapContains m.members.addresses cc.nodeID = false := by
            simpa using haddr
          have hobs' : mapContains m.members.observers cc.nodeID = false := by
            simpa using hobs
          exact ⟨fun h => absurd h (by simp [haddr']),
            fun h => absurd h (by simp [hobs'])⟩
        · simp only [if_neg hk]
          exact
            ⟨fun h => ⟨((hex k).1 h).1, by simp [if_neg hk, ((hex k).1 h).2]⟩,
             fun h => by simp [if_neg hk, (hex k).2 h]⟩
  | removeNode =>
    rw [htype] at happ
    simp only [Option.some.injEq] at happ
    subst happ
    intro k
    simp only [mapContains_delete]
    by_cases hk : k = cc.nodeID
    · simp [if_pos hk]
    · simp only [if_neg hk]
      exact hex k
  | other v =>
    rw [htype] at happ
    exact absurd happ (by simp)

theorem applyConfigChange_configChangeId (m : membership)
    (cc : pb.ConfigChange) (index : Nat) (m2 : membership)
    (happ : m.applyConfigChange cc index = some m2) :
    m2.members.configChangeId = index := by
  unfold membership.applyConfigChange at happ
  cases htype : cc.type <;> rw [htype] at happ <;> simp only at happ
  case addNode =>
    split at happ
    · exact absurd happ (by simp)
    · simp only [Option.some.injEq] at happ; subst happ; rfl
  case addObserver =>
    split at happ
    · exact absurd happ (by simp)
    · simp only [Option.some.injEq] at happ; subst happ; rfl
  case addWitness =>
    split at happ
    · exact absurd happ (by simp)
    · split at happ
      · exact absurd happ (by simp)
      · simp only [Option.some.injEq] at happ; subst happ; rfl
  case removeNode =>
    simp only [Option.some.injEq] at happ; subst happ; rfl
  case other => exact absurd happ (by simp)

theorem applyConfigChange_removed_mono (m : membership)
    (cc : pb.ConfigChange) (index : Nat) (m2 : membership)
    (happ : m.applyConfigChange cc index = some m2) :
    ∀ k ∈ m.members.removed, k ∈ m2.members.removed := by
  unfold membership.applyConfigChange at happ
  cases htype : cc.type <;> rw [htype] at happ <;> simp only at happ
  case addNode =>
    split at happ
    · exact absurd happ (by simp)
    · simp only [Option.some.injEq] at happ
      subst happ
      exact fun k hk => hk
  case addObserver =>
    split at happ
    · exact absurd happ (by simp)
    · simp only [Option.some.injEq] at happ
      subst happ
      exact fun k hk => hk
  case addWitness =>
    split at happ
    · exact absurd happ (by simp)
    · split at happ
      · exact absurd happ (by simp)
      · simp only [Option.some.injEq] at happ
        subst happ
        exact fun k hk => hk
  case removeNode =>
    simp only [Option.some.injEq] at happ
    subst happ
    exact fun k hk => List.mem_insert_of_mem hk
  case other => exact absurd happ (by simp)

theorem handleConfigChange_removed_mono (m : membership)
    (cc : pb.ConfigChange) (index : Nat) (b : Bool) (m' : membership)
    (h : m.handleConfigChange cc index = some (b, m')) :
    ∀ k ∈ m.members.removed, k ∈ m'.members.removed := by
  by_cases hacc : m.acceptedOf cc = true
  · rw [handleConfigChange_accepted m cc index hacc] at h
    cases happ : m.applyConfigChange cc index with
    | none => rw [happ] at h; simp at h
    | some m2 =>
      rw [happ] at h
      simp only [Option.map_some', Option.some.injEq, Prod.mk.injEq] at h
      obtain ⟨h1, h2⟩ := h
      subst h2
      exact applyConfigChange_removed_mono m cc index m2 happ
  · rw [handleConfigChange_rejected m cc index (by simpa using hacc)] at h
    simp only [Option.some.injEq, Prod.mk.injEq] at h
    obtain ⟨h1, h2⟩ := h
    subst h2
    exact fun k hk => hk

/-- Claim C1: for every snapshot and every config-change request (of one
of the four declared kinds), `applyChange` (`handleConfigChange`) returns
true if and only if the request is not stale (staleness being: order
enforcement enabled, not a bootstrap request, and requester order differs
from the snapshot's change order) and none of the rejection predicates
hold: target-removed, already-member, observer-over-voter,
witness-over-voter, witness-to-voter, witness-to-observer,
observer-to-witness, last-voter-removal, invalid-promotion. -/
theorem C1_accepted_iff_validator (m : membership) (cc : pb.ConfigChange)
    (index : Nat)
    (hknown : ∀ v, cc.type ≠ pb.ConfigChangeType.other v) :
    ∃ b m2, m.handleConfigChange cc index = some (b, m2) ∧
      (b = true ↔
        (¬ staleSpec m cc ∧
         m.isAddingRemovedNode cc = false ∧
         m.isAddingExistingMember cc = false ∧
         m.isAddingNodeAsObserver cc = false ∧
         m.isAddingNodeAsWitness cc = false ∧
         m.isAddingWitnessAsNode cc = false ∧
         m.isAddingWitnessAsObserver cc = false ∧
         m.isAddingObserverAsWitness cc = false ∧
         m.isDeletingOnlyNode cc = false ∧
         m.isInvalidObserverPromotion cc = false)) := by
  by_cases hacc : m.acceptedOf cc = true
  · obtain ⟨m2, happ⟩ := applyConfigChange_accepted_some m cc index hacc hknown
    refine ⟨true, m2, ?_, ?_⟩
    · rw [handleConfigChange_accepted m cc index hacc, happ]; rfl
    · exact iff_of_true rfl ((acceptedOf_iff m cc).mp hacc)
  · have h := handleConfigChange_rejected m cc index (by simpa using hacc)
    exact ⟨false, m, h, iff_of_false (by simp)
      (fun hr => hacc ((acceptedOf_iff m cc).mpr hr))⟩

/-- Witness for C1 at a concrete up-to-date removal request. -/
theorem C1_accepted_iff_validator_witness :
    ∃ b m2, c1m.handleConfigChange c1cc 5 = some (b, m2) ∧
      (b = true ↔
        (¬ staleSpec c1m c1cc ∧
         c1m.isAddingRemovedNode c1cc = false ∧
         c1m.isAddingExistingMember c1cc = false ∧
         c1m.isAddingNodeAsObserver c1cc = false ∧
         c1m.isAddingNodeAsWitness c1cc = false ∧
         c1m.isAddingWitnessAsNode c1cc = false ∧
         c1m.isAddingWitnessAsObserver c1cc = false ∧
         c1m.isAddingObserverAsWitness c1cc = false ∧
         c1m.isDeletingOnlyNode c1cc = false ∧
         c1m.isInvalidObserverPromotion c1cc = false)) :=
  C1_accepted_iff_validator c1m c1cc 5 (by intro v h; simp [c1cc] at h)

/-- Claim C2: exclusivity is an invariant: starting from any snapshot in
which every node id appears in at most one of voters, observers and
witnesses, after any `applyChange` call that returns (accepted or
rejected) every node id still appears in at most one of them. -/
theorem C2_exclusivity_invariant (m : membership) (cc : pb.ConfigChange)
    (index : Nat) (b : Bool) (m' : membership)
    (hex : exclusive m.members)
    (h : m.handleConfigChange cc index = some (b, m')) :
    exclusive m'.members := by
  by_cases hacc : m.acceptedOf cc = true
  · rw [handleConfigChange_accepted m cc index hacc] at h
    cases happ : m.applyConfigChange cc index with
    | none => rw [happ] at h; simp at h
    | some m2 =>
      rw [happ] at h
      simp only [Option.map_some', Option.some.injEq, Prod.mk.injEq] at h
      obtain ⟨h1, h2⟩ := h
      subst h2
      exact applyConfigChange_exclusive m cc index m2 hex hacc happ
  · rw [handleConfigChange_rejected m cc index (by simpa using hacc)] at h
    simp only [Option.some.injEq, Prod.mk.injEq] at h
    obtain ⟨h1, h2⟩ := h
    subst h2
    exact hex

/-- Witness for C2 at a concrete accepted bootstrap change. -/
theorem C2_exclusivity_invariant_witness : exclusive c2res.members :=
  C2_exclusivity_invariant c2m c2cc 1 true c2res
    (by
      intro k
      refine ⟨fun h => ?_, fun h => ?_⟩ <;>
        simp [c2m, mapContains, mapLookup] at h)
    (by rfl)

/-- Claim C3: rejection is a no-op: for every snapshot and request, if
`applyChange` returns false then voters, observers, witnesses, removed
and the change order are all unchanged. -/
theorem C3_rejection_noop (m : membership) (cc : pb.ConfigChange)
    (index : Nat) (m' : membership)
    (h : m.handleConfigChange cc index = some (false, m')) :
    m'.members.addresses = m.members.addresses ∧
    m'.members.observers = m.members.observers ∧
    m'.members.witnesses = m.members.witnesses ∧
    m'.members.removed = m.members.removed ∧
    m'.members.configChangeId = m.members.configChangeId := by
  by_cases hacc : m.acceptedOf cc = true
  · rw [handleConfigChange_accepted m cc index hacc] at h
    cases happ : m.applyConfigChange cc index with
    | none => rw [happ] at h; simp at h
    | some m2 => rw [happ] at h; simp at h
  · rw [handleConfigChange_rejected m cc index (by simpa using hacc)] at h
    simp only [Option.some.injEq, Prod.mk.injEq] at h
    obtain ⟨h1, h2⟩ := h
    subst h2
    exact ⟨rfl, rfl, rfl, rfl, rfl⟩

/-- Witness for C3 at a concrete rejected removal of the only voter. -/
theorem C3_rejection_noop_witness :
    c3m.members.addresses = c3m.members.addresses ∧
    c3m.members.observers = c3m.members.observers ∧
    c3m.members.witnesses = c3m.members.witnesses ∧
    c3m.members.removed = c3m.members.removed ∧
    c3m.members.configChangeId = c3m.members.configChangeId :=
  C3_rejection_noop c3m c3cc 2 c3m (by rfl)

/-- Claim C4: if `applyChange(request, logIndex)` returns true the
resulting change order equals `logIndex`; if it returns false the change
order is unchanged; hence with strictly increasing log indexes the change
order strictly increases on accepted changes. -/
theorem C4_changeOrder_stamp (m : membership) (cc : pb.ConfigChange)
    (index : Nat) (b : Bool) (m' : membership)
    (h : m.handleConfigChange cc index = some (b, m')) :
    (b = true → m'.members.configChangeId = index) ∧
    (b = false → m'.members.configChangeId = m.members.configChangeId) ∧
    (b = true → m.members.configChangeId < index →
      m.members.configChangeId < m'.members.configChangeId) := by
  by_cases hacc : m.acceptedOf cc = true
  · rw [handleConfigChange_accepted m cc index hacc] at h
    cases happ : m.applyConfigChange cc index with
    | none => rw [happ] at h; simp at h
    | some m2 =>
      rw [happ] at h
      simp only [Option.map_some', Option.some.injEq, Prod.mk.injEq] at h
      obtain ⟨h1, h2⟩ := h
      subst h2
      have hid := applyConfigChange_configChangeId m cc index m2 happ
      exact ⟨fun _ => hid, fun hb => absurd h1.symm (by simp [hb]),
        fun _ hlt => by rw [hid]; exact hlt⟩
  · rw [handleConfigChange_rejected m cc index (by simpa using hacc)] at h
    simp only [Option.some.injEq, Prod.mk.injEq] at h
    obtain ⟨h1, h2⟩ := h
    subst h2
    exact ⟨fun hb => absurd h1.symm (by simp [hb]), fun _ => rfl,
      fun hb => absurd h1.symm (by simp [hb])⟩

/-- Witness for C4 at a concrete accepted bootstrap change. -/
theorem C4_changeOrder_stamp_witness :
    (true = true → c4res.members.configChangeId = 1) ∧
    (true = false →
      c4res.members.configChangeId = c4m.members.configChangeId) ∧
    (true = true → c4m.members.configChangeId < 1 →
      c4m.members.configChangeId < c4res.members.configChangeId) :=
  C4_changeOrder_stamp c4m c4cc 1 true c4res (by rfl)

/-- Claim C5: last-voter protection: a snapshot whose voter map has
exactly one entry rejects a RemoveNode request targeting that voter and
leaves the snapshot unchanged, regardless of the change order, the
requester order and the bootstrap flag. -/
theorem C5_last_voter_protection (m : membership) (cc : pb.ConfigChange)
    (index : Nat)
    (htype : cc.type = pb.ConfigChangeType.removeNode)
    (hsize : mapSize m.members.addresses = 1)
    (htgt : mapContains m.members.addresses cc.nodeID = true) :
    m.handleConfigChange cc index = some (false, m) := by
  apply handleConfigChange_rejected
  have hdel : m.isDeletingOnlyNode cc = true := by
    unfold membership.isDeletingOnlyNode
    rw [htype]
    simp [hsize, htgt]
  unfold membership.acceptedOf
  simp [hdel]

/-- Witness for C5 at a concrete single-voter store. -/
theorem C5_last_voter_protection_witness :
    c5m.handleConfigChange c5cc 9 = some (false, c5m) :=
  C5_last_voter_protection c5m c5cc 9 (by rfl) (by rfl) (by rfl)

/-- Claim C6: observer promotion requires an address match: with
observers exactly `{2: a}`, node 2 in no other role map, and the snapshot
satisfying the monotonic-retirement invariant (retired ids hold no role,
so node 2 is not retired), an up-to-date AddVoter for node 2 with a
matching address is accepted and moves node 2 from observers to voters,
while a non-matching address is rejected with the snapshot unchanged;
address equality is case-insensitive and ignores surrounding whitespace
(witness the concrete comparisons of `a` with ` A ` and with `b`). -/
theorem C6_promotion_address_match (m : membership) (addr : String)
    (ro index : Nat) (bs : Bool)
    (hobs : m.members.observers = [(2, "a")])
    (hvot : mapContains m.members.addresses 2 = false)
    (hwit : mapContains m.members.witnesses 2 = false)
    (hret : retiredNotRoles m.members)
    (hup : m.isConfChangeUpToDate
      { configChangeId := ro, type := pb.ConfigChangeType.addNode,
        nodeID := 2, address := addr, bootstrap := bs } = true) :
    (addressEqual "a" addr = true →
      ∃ m', m.handleConfigChange
          { configChangeId := ro, type := pb.ConfigChangeType.addNode,
            nodeID := 2, address := addr, bootstrap := bs } index =
          some (true, m') ∧
        mapContains m'.members.addresses 2 = true ∧
        mapContains m'.members.observers 2 = false) ∧
    (addressEqual "a" addr = false →
      m.handleConfigChange
          { configChangeId := ro, type := pb.ConfigChangeType.addNode,
            nodeID := 2, address := addr, bootstrap := bs } index =
        some (false, m)) ∧
    addressEqual "a" " A " = true ∧
    addressEqual "a" "b" = false := by
  have hlook : mapLookup m.members.observers 2 = some "a" := by
    rw [hobs]; rfl
  have hrem : m.members.removed.contains 2 = false := by
    by_cases h2 : (2 : Nat) ∈ m.members.removed
    · have hc := (hret 2 h2).2.1
      rw [hobs] at hc
      simp [mapContains, mapLookup] at hc
    · simpa using h2
  refine ⟨?_, ?_, by decide, by decide⟩
  · intro heq
    have hacc : m.acceptedOf
        { configChangeId := ro, type := pb.ConfigChangeType.addNode,
          nodeID := 2, address := addr, bootstrap := bs } = true := by
      unfold membership.acceptedOf membership.isAddingRemovedNode
        membership.isAddingExistingMember membership.isPromotingObserver
        membership.isAddingNodeAsObserver membership.isAddingNodeAsWitness
        membership.isAddingWitnessAsNode membership.isAddingWitnessAsObserver
        membership.isAddingObserverAsWitness membership.isDeletingOnlyNode
        membership.isInvalidObserverPromotion
      have hrem2 : (2 : Nat) ∉ m.members.removed := by simpa using hrem
      simp [hup, hrem2, hvot, hwit, hlook, heq]
    rw [handleConfigChange_accepted _ _ index hacc]
    refine ⟨{ m with members := { m.members with
        configChangeId := index,
        addresses := mapInsert m.members.addresses 2 addr,
        observers := mapDelete m.members.observers 2 } }, ?_, ?_, ?_⟩
    · unfold membership.applyConfigChange
      simp [hwit]
    · simp [mapContains_insert]
    · simp [mapContains_delete]
  · intro heq
    apply handleConfigChange_rejected
    have hinv : m.isInvalidObserverPromotion
        { configChangeId := ro, type := pb.ConfigChangeType.addNode,
          nodeID := 2, address := addr, bootstrap := bs } = true := by
      unfold membership.isInvalidObserverPromotion
      simp [hlook, heq]
    unfold membership.acceptedOf
    simp [hinv]

/-- Witness for C6 at the concrete observer-only snapshot and matching
address `a`. -/
theorem C6_promotion_address_match_witness :
    (addressEqual "a" "a" = true →
      ∃ m', c6m.handleConfigChange
          { configChangeId := 0, type := pb.ConfigChangeType.addNode,
            nodeID := 2, address := "a", bootstrap := false } 1 =
          some (true, m') ∧
        mapContains m'.members.addresses 2 = true ∧
        mapContains m'.members.observers 2 = false) ∧
    (addressEqual "a" "a" = false →
      c6m.handleConfigChange
          { configChangeId := 0, type := pb.ConfigChangeType.addNode,
            nodeID := 2, address := "a", bootstrap := false } 1 =
        some (false, c6m)) ∧
    addressEqual "a" " A " = true ∧
    addressEqual "a" "b" = false :=
  C6_promotion_address_match c6m "a" 0 1 false (by rfl) (by rfl) (by rfl)
    (by intro k hk; simp [c6m] at hk) (by rfl)

/-- Claim C7: the digest of a snapshot is the first 8 bytes, read as a
little-endian 64-bit integer, of a hash over the little-endian 8-byte
encodings of the voter node ids sorted ascending followed by the
little-endian 8-byte encoding of the change order; observers, witnesses
and the removed set play no part, so two snapshots with equal voter-id
sets and equal change order have equal digests for any hash function. -/
theorem C7_digest_format_and_stability (H : List Nat → List Nat)
    (m1 m2 : membership)
    (hkeys : ∀ k, k ∈ mapKeys m1.members.addresses ↔
      k ∈ mapKeys m2.members.addresses)
    (hord : m1.members.configChangeId = m2.members.configChangeId) :
    membership.getHash H m1 =
      leUint64 ((H (digestBytesSpec (mapKeys m1.members.addresses)
        m1.members.configChangeId)).take 8) ∧
    membership.getHash H m1 = membership.getHash H m2 := by
  have hperm : List.Perm (mapKeys m1.members.addresses)
      (mapKeys m2.members.addresses) :=
    List.perm_of_nodup_nodup_toFinset_eq (List.nodup_dedup _)
      (List.nodup_dedup _)
      (Finset.ext fun k => by
        simp only [List.mem_toFinset]
        exact hkeys k)
  have hsorteq : (mapKeys m1.members.addresses).insertionSort (· ≤ ·) =
      (mapKeys m2.members.addresses).insertionSort (· ≤ ·) :=
    List.eq_of_perm_of_sorted
      (((List.perm_insertionSort _ _).trans hperm).trans
        (List.perm_insertionSort _ _).symm)
      (List.sorted_insertionSort _ _) (List.sorted_insertionSort _ _)
  constructor
  · unfold membership.getHash digestBytesSpec
    simp
  · unfold membership.getHash
    rw [hsorteq, hord]

/-- Witness for C7: two concrete snapshots with voters 1 and 2 inserted
in opposite orders, different addresses and different observer, witness
and removed data, under the identity hash. -/
theorem C7_digest_format_and_stability_witness :
    membership.getHash (fun l => l) c7m1 =
      leUint64 (((fun l : List Nat => l)
        (digestBytesSpec (mapKeys c7m1.members.addresses)
          c7m1.members.configChangeId)).take 8) ∧
    membership.getHash (fun l => l) c7m1 =
      membership.getHash (fun l => l) c7m2 :=
  C7_digest_format_and_stability (fun l => l) c7m1 c7m2
    (by
      intro k
      show k ∈ ([2, 1] : List Nat) ↔ k ∈ ([1, 2] : List Nat)
      constructor <;> intro h <;> simp at h <;> rcases h with h | h <;>
        simp [h])
    (by rfl)

/-- Counterexample to claim C8 as stated: `set` is one of the store's
operations, and it wholesale-replaces the snapshot, so a node id present
in `removed` before a `set` call need not be present afterwards. -/
theorem C8_counterexample :
    (1 : Nat) ∈ (membership.members
      { clusterID := 0, nodeID := 0, ordered := true,
        members := { configChangeId := 0, addresses := [],
                     removed := [1], observers := [],
                     witnesses := [] } }).removed ∧
    (1 : Nat) ∉ (membership.members (membership.set
      { clusterID := 0, nodeID := 0, ordered := true,
        members := { configChangeId := 0, addresses := [],
                     removed := [1], observers := [],
                     witnesses := [] } }
      { configChangeId := 0, addresses := [], removed := [],
        observers := [], witnesses := [] })).removed := by
  constructor
  · simp
  · simp [membership.set, deepCopyMembership]

/-- Claim C8 (amended): the removed set is monotonic non-decreasing
across any sequence of `applyChange` calls: every node id present in
`removed` before the sequence is still present after it. (`set` is
excluded: it replaces the snapshot wholesale during snapshot install and
can shrink `removed`.) -/
theorem C8_removed_monotone_runChanges (ops : List (pb.ConfigChange × Nat))
    (m m' : membership) (h : runChanges m ops = some m') :
    ∀ k ∈ m.members.removed, k ∈ m'.members.removed := by
  induction ops generalizing m with
  | nil =>
    unfold runChanges at h
    simp only [Option.some.injEq] at h
    subst h
    exact fun k hk => hk
  | cons op rest ih =>
    obtain ⟨cc, idx⟩ := op
    unfold runChanges at h
    cases hh : m.handleConfigChange cc idx with
    | none => rw [hh] at h; simp at h
    | some r =>
      obtain ⟨b, m2⟩ := r
      rw [hh] at h
      exact fun k hk => ih m2 h k
        (handleConfigChange_removed_mono m cc idx b m2 hh k hk)

/-- Witness for the amended C8: a concrete accepted removal keeps the
retired id 5 in the removed set. -/
theorem C8_removed_monotone_runChanges_witness :
    (5 : Nat) ∈ c8res.members.removed :=
  C8_removed_monotone_runChanges [(c8cc, 1)] c8m c8res (by rfl) 5
    (by simp [c8m])

/-- Claim C9: RemoveNode does not require the target to be a current
member: for every snapshot and RemoveNode request that passes the
staleness check whose target is not the sole voter, `applyChange` returns
true and afterwards the target id is in `removed` and absent from voters,
observers and witnesses, including when the target was in no role map or
already removed. -/
theorem C9_remove_any_target (m : membership) (cc : pb.ConfigChange)
    (index : Nat)
    (htype : cc.type = pb.ConfigChangeType.removeNode)
    (hup : m.isConfChangeUpToDate cc = true)
    (hnotonly : ¬ (mapSize m.members.addresses = 1 ∧
      mapContains m.members.addresses cc.nodeID = true)) :
    ∃ m', m.handleConfigChange cc index = some (true, m') ∧
      cc.nodeID ∈ m'.members.removed ∧
      mapContains m'.members.addresses cc.nodeID = false ∧
      mapContains m'.members.observers cc.nodeID = false ∧
      mapContains m'.members.witnesses cc.nodeID = false := by
  have hdel : m.isDeletingOnlyNode cc = false := by
    unfold membership.isDeletingOnlyNode
    rw [htype]
    by_cases hsz : mapSize m.members.addresses = 1
    · have hc : mapContains m.members.addresses cc.nodeID = false := by
        cases hcv : mapContains m.members.addresses cc.nodeID
        · rfl
        · exact absurd ⟨hsz, hcv⟩ hnotonly
      simp [hsz, hc]
    · simp [hsz]
  have hacc : m.acceptedOf cc = true := by
    unfold membership.acceptedOf membership.isAddingRemovedNode
      membership.isAddingExistingMember membership.isPromotingObserver
      membership.isAddingNodeAsObserver membership.isAddingNodeAsWitness
      membership.isAddingWitnessAsNode membership.isAddingWitnessAsObserver
      membership.isAddingObserverAsWitness
      membership.isInvalidObserverPromotion
    rw [htype]
    simp [hup, hdel]
  rw [handleConfigChange_accepted m cc index hacc]
  unfold membership.applyConfigChange
  rw [htype]
  simp only [Option.map_some']
  refine ⟨_, rfl, ?_, ?_, ?_, ?_⟩
  · simp [List.mem_insert_iff]
  · simp [mapContains_delete]
  · simp [mapContains_delete]
  · simp [mapContains_delete]

/-- Witness for C9: removing node 9, which is in no role map of the
concrete two-voter store. -/
theorem C9_remove_any_target_witness :
    ∃ m', c9m.handleConfigChange c9cc 1 = some (true, m') ∧
      c9cc.nodeID ∈ m'.members.removed ∧
      mapContains m'.members.addresses c9cc.nodeID = false ∧
      mapContains m'.members.observers c9cc.nodeID = false ∧
      mapContains m'.members.witnesses c9cc.nodeID = false :=
  C9_remove_any_target c9m c9cc 1 (by rfl) (by rfl) (by decide)

/-- Claim C10: a request whose kind is none of the four declared kinds
reaches the applier's fatal abort only when the staleness check passes:
when the request is stale, `applyChange` returns false with the snapshot
unchanged and no abort occurs; when it is not stale, the process
aborts (every role predicate is false for an unknown kind, so staleness
is the only check that can reject it). -/
theorem C10_unknown_kind (m : membership) (cc : pb.ConfigChange)
    (index : Nat) (v : Nat)
    (htype : cc.type = pb.ConfigChangeType.other v) :
    (staleSpec m cc → m.handleConfigChange cc index = some (false, m)) ∧
    (¬ staleSpec m cc → m.handleConfigChange cc index = none) := by
  constructor
  · intro hstale
    apply handleConfigChange_rejected
    have hup : m.isConfChangeUpToDate cc = false := by
      cases hcv : m.isConfChangeUpToDate cc
      · rfl
      · exact absurd ((upToDate_iff_not_stale m cc).mp hcv)
          (by simp [hstale])
    unfold membership.acceptedOf
    simp [hup]
  · intro hns
    have hup : m.isConfChangeUpToDate cc = true :=
      (upToDate_iff_not_stale m cc).mpr hns
    have hacc : m.acceptedOf cc = true := by
      unfold membership.acceptedOf membership.isAddingRemovedNode
        membership.isAddingExistingMember membership.isPromotingObserver
        membership.isAddingNodeAsObserver membership.isAddingNodeAsWitness
        membership.isAddingWitnessAsNode membership.isAddingWitnessAsObserver
        membership.isAddingObserverAsWitness membership.isDeletingOnlyNode
        membership.isInvalidObserverPromotion
      rw [htype]
      simp [hup]
    rw [handleConfigChange_accepted m cc index hacc]
    unfold membership.applyConfigChange
    rw [htype]
    simp

/-- Witness for C10 at a concrete stale request of undeclared kind 7. -/
theorem C10_unknown_kind_witness :
    (staleSpec c10m c10cc →
      c10m.handleConfigChange c10cc 1 = some (false, c10m)) ∧
    (¬ staleSpec c10m c10cc → c10m.handleConfigChange c10cc 1 = none) :=
  C10_unknown_kind c10m c10cc 1 7 (by rfl)
